import Mathlib

/-!
Shallow embedding of the rds_iamauth_proxy core (src/main.rs and
src/backend_config.rs).  Byte strings are modelled as `List Nat` (one entry
per byte), machine integers as `Nat`/`Int` with explicit wrap arithmetic,
and fallible code as `Except`.  A separate `POutcome` type distinguishes a
Rust panic (from `expect`) from an `Err` return value.
-/

namespace RdsProxy

/-- Decidable equality for `Except`, so concrete runs can be checked by
`decide`. -/
instance {ε α : Type} [DecidableEq ε] [DecidableEq α] : DecidableEq (Except ε α) := fun x y =>
  match x, y with
  | .ok a, .ok b => if h : a = b then .isTrue (by rw [h]) else .isFalse (by simp [h])
  | .error a, .error b => if h : a = b then .isTrue (by rw [h]) else .isFalse (by simp [h])
  | .ok _, .error _ => .isFalse (by simp)
  | .error _, .ok _ => .isFalse (by simp)

/-- Bytes of a string literal (all literals used here are ASCII). -/
def strBytes (s : String) : List Nat := s.data.map Char.toNat

/-- `memchr::memchr(needle, haystack)`: index of the first occurrence of
`needle`, if any. -/
def memchr (needle : Nat) : List Nat → Option Nat
  | [] => none
  | b :: rest => if b = needle then some 0 else (memchr needle rest).map (· + 1)

/-- `Buffer::read_cstr` (main.rs lines 58-72): scan for the next NUL in
`bytes[idx..]`; on success return the bytes before it and the cursor moved
one past the NUL; on failure the Rust code returns an UnexpectedEof io error. -/
def read_cstr (bytes : List Nat) (idx : Nat) : Option (List Nat × Nat) :=
  match memchr 0 (bytes.drop idx) with
  | some pos => some ((bytes.drop idx).take pos, idx + pos + 1)
  | none => none

/-- Continuation byte test for UTF-8 (0x80-0xBF). -/
def isCont (b : Nat) : Bool := decide (128 ≤ b ∧ b ≤ 191)

/-- Validity of a byte sequence as UTF-8, exactly the ranges accepted by
Rust's `std::str::from_utf8`. -/
def utf8Valid : List Nat → Bool
  | [] => true
  | b :: rest =>
    if b ≤ 127 then utf8Valid rest
    else if 194 ≤ b ∧ b ≤ 223 then
      match rest with
      | b1 :: rest1 => isCont b1 && utf8Valid rest1
      | [] => false
    else if b = 224 then
      match rest with
      | b1 :: b2 :: rest2 => decide (160 ≤ b1 ∧ b1 ≤ 191) && isCont b2 && utf8Valid rest2
      | _ => false
    else if 225 ≤ b ∧ b ≤ 236 then
      match rest with
      | b1 :: b2 :: rest2 => isCont b1 && isCont b2 && utf8Valid rest2
      | _ => false
    else if b = 237 then
      match rest with
      | b1 :: b2 :: rest2 => decide (128 ≤ b1 ∧ b1 ≤ 159) && isCont b2 && utf8Valid rest2
      | _ => false
    else if 238 ≤ b ∧ b ≤ 239 then
      match rest with
      | b1 :: b2 :: rest2 => isCont b1 && isCont b2 && utf8Valid rest2
      | _ => false
    else if b = 240 then
      match rest with
      | b1 :: b2 :: b3 :: rest3 =>
        decide (144 ≤ b1 ∧ b1 ≤ 191) && isCont b2 && isCont b3 && utf8Valid rest3
      | _ => false
    else if 241 ≤ b ∧ b ≤ 243 then
      match rest with
      | b1 :: b2 :: b3 :: rest3 => isCont b1 && isCont b2 && isCont b3 && utf8Valid rest3
      | _ => false
    else if b = 244 then
      match rest with
      | b1 :: b2 :: b3 :: rest3 =>
        decide (128 ≤ b1 ∧ b1 ≤ 143) && isCont b2 && isCont b3 && utf8Valid rest3
      | _ => false
    else false

/-- Errors produced by the startup parser (main.rs): the io UnexpectedEof
from `read_cstr`, the Utf8Error from `std::str::from_utf8`, and the two
`eyre!` messages after the loop. -/
inductive PErr
  | unexpectedEof
  | invalidUtf8
  | missingUser
  | missingDatabase
  deriving DecidableEq

/-- `std::str::from_utf8(&value)?.to_owned()`: identity on the byte content,
failing when the bytes are not valid UTF-8. -/
def from_utf8 (v : List Nat) : Except PErr (List Nat) :=
  if utf8Valid v then .ok v else .error .invalidUtf8

/-- The byte comparison constant for the tag "user" (main.rs line 82). -/
def userKey : List Nat := strBytes "user"

/-- The byte comparison constant for the tag "database" (main.rs line 84). -/
def databaseKey : List Nat := strBytes "database"

/-- The loop of `parse_startup` (main.rs lines 79-89): read (tag, value)
cstr pairs until both `user` and `database` have been seen.  Returns the
two accumulators together with the final cursor position. -/
def parse_loop (bytes : List Nat) (idx : Nat) (user database : Option (List Nat)) :
    Except PErr (Option (List Nat) × Option (List Nat) × Nat) :=
  if user.isSome ∧ database.isSome then .ok (user, database, idx)
  else
    match h1 : read_cstr bytes idx with
    | none => .error .unexpectedEof
    | some (tag, idx1) =>
      match h2 : read_cstr bytes idx1 with
      | none => .error .unexpectedEof
      | some (value, idx2) =>
        if tag = userKey then
          match from_utf8 value with
          | .error e => .error e
          | .ok s => parse_loop bytes idx2 (some s) database
        else if tag = databaseKey then
          match from_utf8 value with
          | .error e => .error e
          | .ok s => parse_loop bytes idx2 user (some s)
        else
          match from_utf8 tag with
          | .error e => .error e
          | .ok _ => parse_loop bytes idx2 user database
termination_by bytes.length - idx
decreasing_by
  all_goals {
    have hb : ∀ (l : List Nat) (pos : Nat), memchr 0 l = some pos → pos < l.length := by
      intro l
      induction l with
      | nil => intro pos h; simp [memchr] at h
      | cons b rest ih =>
        intro pos h
        simp only [memchr] at h
        by_cases hbz : b = 0
        · simp [hbz] at h; simp only [List.length_cons]; omega
        · simp [hbz] at h
          obtain ⟨q, hq, hqe⟩ := h
          have := ih q hq
          simp only [List.length_cons]
          omega
    have hr : ∀ (i : Nat) (t : List Nat) (j : Nat), read_cstr bytes i = some (t, j) →
        i < j ∧ j ≤ bytes.length := by
      intro i t j h
      simp only [read_cstr] at h
      cases hm : memchr 0 (bytes.drop i) with
      | none => rw [hm] at h; simp at h
      | some pos =>
        rw [hm] at h
        simp at h
        have hlt := hb _ _ hm
        rw [List.length_drop] at hlt
        omega
    have hb1 := hr _ _ _ h1
    have hb2 := hr _ _ _ h2
    omega
  }

/-- `DbSpec` (backend_config.rs lines 29-32); the Rust `String` fields are
modelled by their UTF-8 byte content. -/
structure DbSpec where
  user : List Nat
  database : List Nat
  deriving DecidableEq

/-- `parse_startup` (main.rs lines 75-95). -/
def parse_startup (src : List Nat) : Except PErr DbSpec :=
  match parse_loop src 0 none none with
  | .error e => .error e
  | .ok (u, d, _) =>
    match u with
    | none => .error .missingUser
    | some uu =>
      match d with
      | none => .error .missingDatabase
      | some dd => .ok ⟨uu, dd⟩

/-- `BigEndian::read_i32(&bytes[off..])`: four bytes, big-endian, as a
signed 32-bit value. -/
def read_i32_at (bytes : List Nat) (off : Nat) : Int :=
  let n := (bytes.getD off 0) * 16777216 + (bytes.getD (off + 1) 0) * 65536 +
    (bytes.getD (off + 2) 0) * 256 + bytes.getD (off + 3) 0
  if n < 2147483648 then (n : Int) else (n : Int) - 4294967296

/-- `len as usize` on a 64-bit target: sign-extend, then reinterpret. -/
def i32_as_usize (i : Int) : Nat := (if 0 ≤ i then i else i + 18446744073709551616).toNat

/-- Wire constant (main.rs line 42). -/
def SSL_REQUEST : Int := 80877103

/-- Wire constant (main.rs line 43). -/
def STARTUP_MESSAGE : Int := 196608

/-- Wire constant (main.rs line 44). -/
def SSL_NOT_ALLOWED : Nat := 78

/-- What `auth_backend` (main.rs lines 102-126) does with one decoded
chunk from the byte codec. -/
inductive AuthStep
  | tooSmall
  | sslNotAllowed
  | startup (r : Except PErr DbSpec)
  | shortPacket (wanted : Int) (got : Nat)
  | unknownTag (tag : Int)
  deriving DecidableEq

/-- One iteration of the `auth_backend` loop body on a chunk `bytes`. -/
def auth_step (bytes : List Nat) : AuthStep :=
  if bytes.length < 8 then .tooSmall
  else
    let len := read_i32_at bytes 0
    let tag := read_i32_at bytes 4
    if len = 8 ∧ tag = SSL_REQUEST then .sslNotAllowed
    else if tag = STARTUP_MESSAGE then
      if bytes.length < i32_as_usize len then .shortPacket len bytes.length
      else .startup (parse_startup (bytes.drop 8))
    else .unknownTag tag

/-- Terminal outcome of `auth_backend`: either the parsed `DbSpec` is
handed to `get_server_conn`, or one of the error returns fires. -/
inductive AuthOut
  | serverConn (db : DbSpec)
  | errTooSmall
  | errShortPacket (wanted : Int) (got : Nat)
  | errParse (e : PErr)
  | errUnknownTag (tag : Int)
  | errClientClosed
  deriving DecidableEq

/-- The `while let Some(message) = framed.next()` loop of `auth_backend`
over the successive chunks, collecting the byte responses written back to
the client together with the terminal outcome. -/
def auth_run : List (List Nat) → List (List Nat) × AuthOut
  | [] => ([], .errClientClosed)
  | f :: rest =>
    match auth_step f with
    | .sslNotAllowed =>
      let r := auth_run rest
      ([SSL_NOT_ALLOWED] :: r.1, r.2)
    | .startup (.ok db) => ([], .serverConn db)
    | .startup (.error e) => ([], .errParse e)
    | .tooSmall => ([], .errTooSmall)
    | .shortPacket w g => ([], .errShortPacket w g)
    | .unknownTag t => ([], .errUnknownTag t)

/-- Decimal digit bytes of a positive number, most significant first. -/
def natDigits (n : Nat) : List Nat :=
  if h : n = 0 then []
  else natDigits (n / 10) ++ [48 + n % 10]
termination_by n
decreasing_by exact Nat.div_lt_self (Nat.pos_of_ne_zero h) (by decide)

/-- Bytes of the decimal rendering of a number, as Rust `format!` writes a
`u16`. -/
def natToBytes (n : Nat) : List Nat := if n = 0 then [48] else natDigits n

/-- `Addr` (backend_config.rs lines 49-53). -/
structure Addr where
  hostname : List Nat
  port : Nat
  deriving DecidableEq

/-- `Addr::connect_str` (backend_config.rs lines 56-58). -/
def Addr.connect_str (a : Addr) : List Nat := a.hostname ++ strBytes ":" ++ natToBytes a.port

/-- `BackendConfig` (backend_config.rs lines 61-66). -/
structure BackendConfig where
  endpoint : Addr
  region : List Nat
  proxy_endpoint : Option Addr
  deriving DecidableEq

/-- `BackendConfig::connect_endpoint` (backend_config.rs lines 69-74). -/
def connect_endpoint (c : BackendConfig) : Addr :=
  match c.proxy_endpoint with
  | some proxy => proxy
  | none => c.endpoint

/-- The argument pair handed to `native_tls` in `upgrade_to_tls`
(backend_config.rs lines 111-114): certificate-chain checking disabled, and
the domain used for certificate name matching. -/
structure TlsConnectRequest where
  dangerAcceptInvalidCerts : Bool
  domain : List Nat
  deriving DecidableEq

/-- Errors of the backend connection path. -/
inductive BErr
  | serverNoTls
  deriving DecidableEq

/-- `BackendConfig::upgrade_to_tls` (backend_config.rs lines 99-118) after
the probe write: `firstResponseByte` is the single byte read back; 83 is
the byte value of the character S. -/
def upgrade_to_tls (c : BackendConfig) (firstResponseByte : Nat) :
    Except BErr TlsConnectRequest :=
  if firstResponseByte ≠ 83 then .error .serverNoTls
  else .ok { dangerAcceptInvalidCerts := true, domain := c.endpoint.hostname }

/-- The data-determined effects of `get_server_conn` and `backend_conn`
(backend_config.rs lines 76-97): which (host, port, region, user) tuple is
passed to `get_rds_password`, which address string is passed to
`TcpStream::connect`, which domain the TLS upgrade uses, and which
user/database go into the startup message sent by `send_password`. -/
structure ServerConnEffects where
  signHost : List Nat
  signPort : Nat
  signRegion : List Nat
  signUser : List Nat
  tcpTarget : List Nat
  tlsDomain : List Nat
  startupUser : List Nat
  startupDatabase : List Nat
  deriving DecidableEq

/-- Effects record of `get_server_conn` (backend_config.rs lines 76-97),
field by field from the source: `get_rds_password(self.endpoint.hostname,
self.endpoint.port, self.region, db_spec.user)`,
`TcpStream::connect(self.connect_endpoint().connect_str())`, the TLS
domain from `upgrade_to_tls`, and `send_password(&db_spec, ...)`. -/
def get_server_conn_effects (c : BackendConfig) (db : DbSpec) : ServerConnEffects :=
  { signHost := c.endpoint.hostname
    signPort := c.endpoint.port
    signRegion := c.region
    signUser := db.user
    tcpTarget := (connect_endpoint c).connect_str
    tlsDomain := c.endpoint.hostname
    startupUser := db.user
    startupDatabase := db.database }

/-- Io errors during the relay copy loops. -/
inductive IoErr
  | connReset
  | brokenPipe
  deriving DecidableEq

/-- Outcome of one relay copy loop: the value of the async block and
whether the `shutdown` call on the destination was ever reached. -/
structure CopyLoopRun where
  result : Except IoErr Unit
  shutdownCalled : Bool
  deriving DecidableEq

/-- One relay direction of `handle_client` (main.rs lines 145-148 and
150-153): `tokio::io::copy(..).await?; dst.shutdown().await`.  The `?`
returns the copy error immediately, so `shutdown` runs only after a
successful copy. -/
def copy_loop (copyResult : Except IoErr Nat) (shutdownResult : Except IoErr Unit) :
    CopyLoopRun :=
  match copyResult with
  | .error e => { result := .error e, shutdownCalled := false }
  | .ok _ => { result := shutdownResult, shutdownCalled := true }

/-- The outcomes one relay direction would produce if run: what its
`tokio::io::copy` resolves to, and what its `shutdown` would resolve to
afterwards. -/
structure LoopSpec where
  copyResult : Except IoErr Nat
  shutdownResult : Except IoErr Unit
  deriving DecidableEq

/-- How one relay direction ended by the time the session finished:
either its async block ran to its own return value (with the record of
whether `shutdown` was reached), or the future was dropped — cancelled —
by `try_join!` returning early, in which case it ran no further code and
in particular never performed its shutdown. -/
inductive LoopEnd
  | completed (result : Except IoErr Unit) (shutdownCalled : Bool)
  | cancelled
  deriving DecidableEq

/-- `tokio::try_join!(client_to_server, server_to_client)` at main.rs
line 154.  Both futures are polled in the same task; `first` is, by
convention, the branch that resolves first (the two directions are
symmetric, so the convention loses no generality).  If `first` ends in an
error — from its copy or from its shutdown — the macro returns that error
immediately and the still-pending `second` future is dropped: it is
cancelled and never reaches its shutdown.  Only when `first` completes
successfully does `second` run to its own completion, its error, if any,
becoming the terminal result.  Returns (terminal result, how the first
loop ended, how the second loop ended). -/
def try_join_relay (first second : LoopSpec) :
    Except IoErr Unit × LoopEnd × LoopEnd :=
  let a := copy_loop first.copyResult first.shutdownResult
  match a.result with
  | .error e => (.error e, .completed (.error e) a.shutdownCalled, .cancelled)
  | .ok _ =>
    let b := copy_loop second.copyResult second.shutdownResult
    (b.result, .completed (.ok ()) a.shutdownCalled, .completed b.result b.shutdownCalled)

/-- Possible `Err` payloads of `get_rds_password` (backend_config.rs):
the `?`-propagated failures of the signing-parameter build, the url parse
and the signing call.  A missing-credentials condition never appears here
because the code handles it with `expect`. -/
inductive RdsErr
  | credentialError
  | signingError
  | urlParseError
  deriving DecidableEq

/-- Resolved ambient credentials (opaque content). -/
structure Credentials where
  accessKeyId : List Nat
  deriving DecidableEq

/-- Outcome of running a fallible Rust function, with panics (from
`expect`) distinguished from returned `Err` values. -/
inductive POutcome (α : Type)
  | ok (a : α)
  | panicked (msg : List Nat)
  | err (e : RdsErr)
  deriving DecidableEq

/-- `SignatureLocation` of the signing settings. -/
inductive SigLocation
  | headers
  | queryParams
  deriving DecidableEq

/-- The signing settings built in `get_rds_password` (backend_config.rs
lines 139-141). -/
structure SigningSettings where
  expiresInSecs : Option Nat
  signatureLocation : SigLocation
  deriving DecidableEq

/-- backend_config.rs lines 139-141: default settings with a 900-second
expiry and the signature in the query parameters. -/
def rds_signing_settings : SigningSettings :=
  { expiresInSecs := some 900, signatureLocation := .queryParams }

/-- The signing parameters built in `get_rds_password` (backend_config.rs
lines 143-149). -/
structure SigningParams where
  region : List Nat
  serviceName : List Nat
  settings : SigningSettings
  deriving DecidableEq

/-- backend_config.rs lines 143-149: region-scoped parameters for the
`rds-db` pseudo-service. -/
def rds_signing_params (region : List Nat) : SigningParams :=
  { region := region, serviceName := strBytes "rds-db", settings := rds_signing_settings }

/-- `HTTPS_LEN` (backend_config.rs line 121). -/
def HTTPS_LEN : Nat := (strBytes "https://").length

/-- The url built by the format string at backend_config.rs lines 151-153. -/
def base_url (host : List Nat) (port : Nat) (user : List Nat) : List Nat :=
  strBytes "https://" ++ host ++ strBytes ":" ++ natToBytes port ++
    strBytes "/?Action=connect&DBUser=" ++ user

/-- The loop at backend_config.rs lines 166-168: append each signing
instruction as one more query pair on the existing query string. -/
def append_query_pairs (url : List Nat) (ps : List (List Nat × List Nat)) : List Nat :=
  ps.foldl (fun u p => u ++ strBytes "&" ++ p.1 ++ strBytes "=" ++ p.2) url

/-- The full signed url: base url plus the signing instructions' query
pairs. -/
def signed_url (host : List Nat) (port : Nat) (user : List Nat)
    (signedQueryParams : List (List Nat × List Nat)) : List Nat :=
  append_query_pairs (base_url host port user) signedQueryParams

/-- `get_rds_password` (backend_config.rs lines 123-172).  External
collaborators enter as data: `credentialsResult` is what the ambient
credential chain resolved (the code consumes it with
`.expect("unable to load credentials")`), and `signedQueryParams` are the
query pairs produced by the sigv4 signer for this request.  On the
successful path the function builds the signing parameters, signs the
`GET` url, appends the signature query pairs and returns
`url.to_string().split_off(HTTPS_LEN)` — the signed url with its scheme
prefix removed. -/
def get_rds_password (host : List Nat) (port : Nat) (region : List Nat) (user : List Nat)
    (credentialsResult : Except RdsErr Credentials)
    (signedQueryParams : List (List Nat × List Nat)) : POutcome (List Nat) :=
  match credentialsResult with
  | .error _ => .panicked (strBytes "unable to load credentials")
  | .ok _ =>
    let _params := rds_signing_params region
    .ok ((signed_url host port user signedQueryParams).drop HTTPS_LEN)

/-- A concrete configuration with a proxy endpoint distinct from the
database endpoint, used for concrete checks. -/
def proxiedConfig : BackendConfig :=
  { endpoint := { hostname := strBytes "db.internal", port := 5432 }
    region := strBytes "us-east-1"
    proxy_endpoint := some { hostname := strBytes "bastion.internal", port := 5433 } }

/-- Encoding of one (key, value) pair in a startup payload: key bytes, NUL,
value bytes, NUL. -/
def encPair (p : List Nat × List Nat) : List Nat := p.1 ++ [0] ++ p.2 ++ [0]

/-- Encoding of a sequence of (key, value) pairs. -/
def encPairs (ps : List (List Nat × List Nat)) : List Nat := (ps.map encPair).flatten

/-- A pair the parser is supposed to skip: NUL-free key and value, key
valid UTF-8 (the parser decodes it for its log line) and distinct from the
two recognized keys. -/
def goodIgnored (p : List Nat × List Nat) : Prop :=
  0 ∉ p.1 ∧ 0 ∉ p.2 ∧ utf8Valid p.1 = true ∧ p.1 ≠ userKey ∧ p.1 ≠ databaseKey

instance (p : List Nat × List Nat) : Decidable (goodIgnored p) := by
  unfold goodIgnored
  infer_instance

/-- A concrete first frame whose declared length field (9) differs from the
number of bytes present (26): header [0,0,0,9, 0,3,0,0] (length 9, startup
tag 196608) followed by the pairs user=u and database=d. -/
def c6frame : List Nat :=
  [0, 0, 0, 9, 0, 3, 0, 0,
   117, 115, 101, 114, 0, 117, 0,
   100, 97, 116, 97, 98, 97, 115, 101, 0, 100, 0]

theorem memchr_append_not_mem {needle : Nat} {t : List Nat} (r : List Nat) (h : needle ∉ t) :
    memchr needle (t ++ needle :: r) = some t.length := by
  induction t with
  | nil => simp [memchr]
  | cons b bs ih =>
    have hb : ¬ b = needle := fun hh => h (hh ▸ List.mem_cons_self b bs)
    have hbs : needle ∉ bs := fun hm => h (List.mem_cons_of_mem _ hm)
    simp only [List.cons_append, memchr, if_neg hb, List.append_eq]
    rw [ih hbs]
    simp

theorem read_cstr_exact {bytes : List Nat} {idx : Nat} {t rest : List Nat}
    (hd : bytes.drop idx = t ++ 0 :: rest) (ht : 0 ∉ t) :
    read_cstr bytes idx = some (t, idx + t.length + 1) ∧
      bytes.drop (idx + t.length + 1) = rest := by
  have hm : memchr 0 (t ++ 0 :: rest) = some t.length := memchr_append_not_mem rest ht
  constructor
  · simp only [read_cstr, hd, hm, List.take_left]
  · have h1 : bytes.drop (idx + t.length + 1) = (bytes.drop idx).drop (t.length + 1) := by
      rw [List.drop_drop, Nat.add_assoc]
    rw [h1, hd]
    have h2 : t ++ 0 :: rest = (t ++ [0]) ++ rest := by simp
    rw [h2]
    have h3 : t.length + 1 = (t ++ [0]).length := by simp
    rw [h3, List.drop_left]



theorem parse_loop_done {bytes : List Nat} {idx : Nat} {u d : Option (List Nat)}
    (hu : u.isSome) (hd : d.isSome) :
    parse_loop bytes idx u d = .ok (u, d, idx) := by
  rw [parse_loop]
  rw [if_pos ⟨hu, hd⟩]

theorem parse_loop_pair_step {bytes : List Nat} {idx : Nat} {u d : Option (List Nat)}
    {t v rest : List Nat}
    (hnb : ¬ (u.isSome ∧ d.isSome))
    (hdrop : bytes.drop idx = t ++ 0 :: (v ++ 0 :: rest))
    (ht : 0 ∉ t) (hv : 0 ∉ v) :
    parse_loop bytes idx u d =
      if t = userKey then
        (if utf8Valid v then parse_loop bytes (idx + t.length + 1 + (v.length + 1)) (some v) d
         else .error .invalidUtf8)
      else if t = databaseKey then
        (if utf8Valid v then parse_loop bytes (idx + t.length + 1 + (v.length + 1)) u (some v)
         else .error .invalidUtf8)
      else
        (if utf8Valid t then parse_loop bytes (idx + t.length + 1 + (v.length + 1)) u d
         else .error .invalidUtf8) := by
  obtain ⟨hr1, hd1⟩ := read_cstr_exact hdrop ht
  obtain ⟨hr2, hd2⟩ := read_cstr_exact hd1 hv
  rw [parse_loop]
  rw [if_neg hnb]
  split
  next heq => rw [hr1] at heq; exact absurd heq (by simp)
  next tag idx1 heq =>
    rw [hr1] at heq
    injection heq with heq1
    injection heq1 with heqt heqi
    subst heqt
    subst heqi
    split
    next heq2 => rw [hr2] at heq2; exact absurd heq2 (by simp)
    next value idx2 heq2 =>
      rw [hr2] at heq2
      injection heq2 with heq3
      injection heq3 with heqv heqj
      subst heqv
      subst heqj
      by_cases h1 : t = userKey
      · rw [if_pos h1, if_pos h1]
        simp only [from_utf8]
        by_cases h2 : utf8Valid v
        · rw [if_pos h2, if_pos h2]; rfl
        · rw [if_neg h2, if_neg h2]
      · rw [if_neg h1, if_neg h1]
        by_cases h3 : t = databaseKey
        · rw [if_pos h3, if_pos h3]
          simp only [from_utf8]
          by_cases h2 : utf8Valid v
          · rw [if_pos h2, if_pos h2]; rfl
          · rw [if_neg h2, if_neg h2]
        · rw [if_neg h3, if_neg h3]
          simp only [from_utf8]
          by_cases h2 : utf8Valid t
          · rw [if_pos h2, if_pos h2]; rfl
          · rw [if_neg h2, if_neg h2]

theorem encPair_append (t v X : List Nat) : encPair (t, v) ++ X = t ++ 0 :: (v ++ 0 :: X) := by
  simp [encPair]

theorem encPairs_cons (p : List Nat × List Nat) (ps : List (List Nat × List Nat)) :
    encPairs (p :: ps) = encPair p ++ encPairs ps := by
  simp [encPairs]

theorem length_encPair (t v : List Nat) :
    (encPair (t, v)).length = t.length + v.length + 2 := by
  simp [encPair]
  omega

theorem parse_loop_user_step {bytes : List Nat} {idx : Nat} {u d : Option (List Nat)}
    {v rest : List Nat} (hnb : ¬ (u.isSome ∧ d.isSome))
    (hdrop : bytes.drop idx = userKey ++ 0 :: (v ++ 0 :: rest))
    (hv : 0 ∉ v) (hval : utf8Valid v = true) :
    parse_loop bytes idx u d =
      parse_loop bytes (idx + (encPair (userKey, v)).length) (some v) d := by
  have hL : idx + userKey.length + 1 + (v.length + 1) = idx + (encPair (userKey, v)).length := by
    rw [length_encPair]
    omega
  rw [parse_loop_pair_step hnb hdrop (by decide) hv, if_pos rfl, if_pos hval, hL]

theorem parse_loop_database_step {bytes : List Nat} {idx : Nat} {u d : Option (List Nat)}
    {v rest : List Nat} (hnb : ¬ (u.isSome ∧ d.isSome))
    (hdrop : bytes.drop idx = databaseKey ++ 0 :: (v ++ 0 :: rest))
    (hv : 0 ∉ v) (hval : utf8Valid v = true) :
    parse_loop bytes idx u d =
      parse_loop bytes (idx + (encPair (databaseKey, v)).length) u (some v) := by
  have hL : idx + databaseKey.length + 1 + (v.length + 1) =
      idx + (encPair (databaseKey, v)).length := by
    rw [length_encPair]
    omega
  rw [parse_loop_pair_step hnb hdrop (by decide) hv, if_neg (by decide), if_pos rfl,
    if_pos hval, hL]

theorem parse_loop_bad_tag {bytes : List Nat} {idx : Nat} {u d : Option (List Nat)}
    {t v rest : List Nat} (hnb : ¬ (u.isSome ∧ d.isSome))
    (hdrop : bytes.drop idx = t ++ 0 :: (v ++ 0 :: rest))
    (ht : 0 ∉ t) (hv : 0 ∉ v)
    (htu : t ≠ userKey) (htd : t ≠ databaseKey) (htf : utf8Valid t = false) :
    parse_loop bytes idx u d = .error .invalidUtf8 := by
  rw [parse_loop_pair_step hnb hdrop ht hv, if_neg htu, if_neg htd, if_neg (by simp [htf])]

theorem parse_loop_skip {ps : List (List Nat × List Nat)} :
    ∀ {bytes : List Nat} {idx : Nat} {u d : Option (List Nat)} {rest : List Nat},
    (∀ p ∈ ps, goodIgnored p) →
    bytes.drop idx = encPairs ps ++ rest →
    ¬ (u.isSome ∧ d.isSome) →
    parse_loop bytes idx u d = parse_loop bytes (idx + (encPairs ps).length) u d := by
  induction ps with
  | nil =>
    intro bytes idx u d rest _ _ _
    simp [encPairs]
  | cons p ps ih =>
    intro bytes idx u d rest hgood hdrop hnb
    obtain ⟨t, v⟩ := p
    obtain ⟨ht, hv, hval, htu, htd⟩ := hgood (t, v) (List.mem_cons_self _ _)
    have hdrop2 : bytes.drop idx = t ++ 0 :: (v ++ 0 :: (encPairs ps ++ rest)) := by
      rw [hdrop, encPairs_cons, List.append_assoc, encPair_append]
    obtain ⟨hr1, hd1⟩ := read_cstr_exact hdrop2 ht
    obtain ⟨hr2, hd2⟩ := read_cstr_exact hd1 hv
    rw [parse_loop_pair_step hnb hdrop2 ht hv, if_neg htu, if_neg htd, if_pos hval]
    rw [show idx + t.length + 1 + (v.length + 1) = idx + t.length + 1 + v.length + 1 from by omega]
    rw [ih (fun q hq => hgood q (List.mem_cons_of_mem _ hq)) hd2 hnb]
    congr 1
    rw [encPairs_cons, List.length_append, length_encPair]
    omega



/-- C10: if the key user (or database) occurs more than once in the
startup payload before both keys have been seen, parse_startup returns the
value of the last such occurrence — each later occurrence of the same key
overwrites the earlier one. -/
theorem c10_duplicate_keys_overwrite (l1 l2 l3 : List (List Nat × List Nat))
    (u1 u2 dd d1 d2 uu trailing : List Nat)
    (h1 : ∀ p ∈ l1, goodIgnored p) (h2 : ∀ p ∈ l2, goodIgnored p)
    (h3 : ∀ p ∈ l3, goodIgnored p)
    (hu10 : 0 ∉ u1) (hu1v : utf8Valid u1 = true)
    (hu20 : 0 ∉ u2) (hu2v : utf8Valid u2 = true)
    (hdd0 : 0 ∉ dd) (hddv : utf8Valid dd = true)
    (hd10 : 0 ∉ d1) (hd1v : utf8Valid d1 = true)
    (hd20 : 0 ∉ d2) (hd2v : utf8Valid d2 = true)
    (huu0 : 0 ∉ uu) (huuv : utf8Valid uu = true) :
    parse_startup (encPairs l1 ++ (encPair (userKey, u1) ++ (encPairs l2 ++ (encPair (userKey, u2) ++ (encPairs l3 ++ (encPair (databaseKey, dd) ++ trailing)))))) = .ok ⟨u2, dd⟩ ∧
    parse_startup (encPairs l1 ++ (encPair (databaseKey, d1) ++ (encPairs l2 ++ (encPair (databaseKey, d2) ++ (encPairs l3 ++ (encPair (userKey, uu) ++ trailing)))))) = .ok ⟨uu, d2⟩ := by
  constructor
  · have hloop : parse_loop (encPairs l1 ++ (encPair (userKey, u1) ++ (encPairs l2 ++ (encPair (userKey, u2) ++ (encPairs l3 ++ (encPair (databaseKey, dd) ++ trailing)))))) 0 none none =
        .ok (some u2, some dd, (encPairs l1).length + (encPair (userKey, u1)).length + (encPairs l2).length + (encPair (userKey, u2)).length + (encPairs l3).length + (encPair (databaseKey, dd)).length) := by
      rw [parse_loop_skip h1 (List.drop_zero _) (by simp), Nat.zero_add]
      have hd1 : (encPairs l1 ++ (encPair (userKey, u1) ++ (encPairs l2 ++ (encPair (userKey, u2) ++ (encPairs l3 ++ (encPair (databaseKey, dd) ++ trailing)))))).drop (encPairs l1).length = encPair (userKey, u1) ++ (encPairs l2 ++ (encPair (userKey, u2) ++ (encPairs l3 ++ (encPair (databaseKey, dd) ++ trailing)))) := List.drop_left _ _
      have hd1x := hd1.trans (encPair_append _ _ _)
      rw [parse_loop_user_step (by simp) hd1x hu10 hu1v]
      have hassoc2 : (encPairs l1 ++ (encPair (userKey, u1) ++ (encPairs l2 ++ (encPair (userKey, u2) ++ (encPairs l3 ++ (encPair (databaseKey, dd) ++ trailing)))))) = (encPairs l1 ++ encPair (userKey, u1)) ++ (encPairs l2 ++ (encPair (userKey, u2) ++ (encPairs l3 ++ (encPair (databaseKey, dd) ++ trailing)))) := by simp [List.append_assoc]
      have hd2 : (encPairs l1 ++ (encPair (userKey, u1) ++ (encPairs l2 ++ (encPair (userKey, u2) ++ (encPairs l3 ++ (encPair (databaseKey, dd) ++ trailing)))))).drop ((encPairs l1).length + (encPair (userKey, u1)).length) = encPairs l2 ++ (encPair (userKey, u2) ++ (encPairs l3 ++ (encPair (databaseKey, dd) ++ trailing))) := by
        rw [show ((encPairs l1).length + (encPair (userKey, u1)).length : Nat) = ((encPairs l1 ++ encPair (userKey, u1))).length from by simp [List.length_append] <;> omega, hassoc2, List.drop_left]
      rw [parse_loop_skip h2 hd2 (by simp)]
      have hassoc3 : (encPairs l1 ++ (encPair (userKey, u1) ++ (encPairs l2 ++ (encPair (userKey, u2) ++ (encPairs l3 ++ (encPair (databaseKey, dd) ++ trailing)))))) = ((encPairs l1 ++ encPair (userKey, u1)) ++ encPairs l2) ++ (encPair (userKey, u2) ++ (encPairs l3 ++ (encPair (databaseKey, dd) ++ trailing))) := by simp [List.append_assoc]
      have hd3 : (encPairs l1 ++ (encPair (userKey, u1) ++ (encPairs l2 ++ (encPair (userKey, u2) ++ (encPairs l3 ++ (encPair (databaseKey, dd) ++ trailing)))))).drop ((encPairs l1).length + (encPair (userKey, u1)).length + (encPairs l2).length) = encPair (userKey, u2) ++ (encPairs l3 ++ (encPair (databaseKey, dd) ++ trailing)) := by
        rw [show ((encPairs l1).length + (encPair (userKey, u1)).length + (encPairs l2).length : Nat) = (((encPairs l1 ++ encPair (userKey, u1)) ++ encPairs l2)).length from by simp [List.length_append] <;> omega, hassoc3, List.drop_left]
      have hd3x := hd3.trans (encPair_append _ _ _)
      rw [parse_loop_user_step (by simp) hd3x hu20 hu2v]
      have hassoc4 : (encPairs l1 ++ (encPair (userKey, u1) ++ (encPairs l2 ++ (encPair (userKey, u2) ++ (encPairs l3 ++ (encPair (databaseKey, dd) ++ trailing)))))) = (((encPairs l1 ++ encPair (userKey, u1)) ++ encPairs l2) ++ encPair (userKey, u2)) ++ (encPairs l3 ++ (encPair (databaseKey, dd) ++ trailing)) := by simp [List.append_assoc]
      have hd4 : (encPairs l1 ++ (encPair (userKey, u1) ++ (encPairs l2 ++ (encPair (userKey, u2) ++ (encPairs l3 ++ (encPair (databaseKey, dd) ++ trailing)))))).drop ((encPairs l1).length + (encPair (userKey, u1)).length + (encPairs l2).length + (encPair (userKey, u2)).length) = encPairs l3 ++ (encPair (databaseKey, dd) ++ trailing) := by
        rw [show ((encPairs l1).length + (encPair (userKey, u1)).length + (encPairs l2).length + (encPair (userKey, u2)).length : Nat) = ((((encPairs l1 ++ encPair (userKey, u1)) ++ encPairs l2) ++ encPair (userKey, u2))).length from by simp [List.length_append] <;> omega, hassoc4, List.drop_left]
      rw [parse_loop_skip h3 hd4 (by simp)]
      have hassoc5 : (encPairs l1 ++ (encPair (userKey, u1) ++ (encPairs l2 ++ (encPair (userKey, u2) ++ (encPairs l3 ++ (encPair (databaseKey, dd) ++ trailing)))))) = ((((encPairs l1 ++ encPair (userKey, u1)) ++ encPairs l2) ++ encPair (userKey, u2)) ++ encPairs l3) ++ (encPair (databaseKey, dd) ++ trailing) := by simp [List.append_assoc]
      have hd5 : (encPairs l1 ++ (encPair (userKey, u1) ++ (encPairs l2 ++ (encPair (userKey, u2) ++ (encPairs l3 ++ (encPair (databaseKey, dd) ++ trailing)))))).drop ((encPairs l1).length + (encPair (userKey, u1)).length + (encPairs l2).length + (encPair (userKey, u2)).length + (encPairs l3).length) = encPair (databaseKey, dd) ++ trailing := by
        rw [show ((encPairs l1).length + (encPair (userKey, u1)).length + (encPairs l2).length + (encPair (userKey, u2)).length + (encPairs l3).length : Nat) = (((((encPairs l1 ++ encPair (userKey, u1)) ++ encPairs l2) ++ encPair (userKey, u2)) ++ encPairs l3)).length from by simp [List.length_append] <;> omega, hassoc5, List.drop_left]
      have hd5x := hd5.trans (encPair_append _ _ _)
      rw [parse_loop_database_step (by simp) hd5x hdd0 hddv]
      rw [parse_loop_done (by simp) (by simp)]
    simp only [parse_startup, hloop]
  · have hloop : parse_loop (encPairs l1 ++ (encPair (databaseKey, d1) ++ (encPairs l2 ++ (encPair (databaseKey, d2) ++ (encPairs l3 ++ (encPair (userKey, uu) ++ trailing)))))) 0 none none =
        .ok (some uu, some d2, (encPairs l1).length + (encPair (databaseKey, d1)).length + (encPairs l2).length + (encPair (databaseKey, d2)).length + (encPairs l3).length + (encPair (userKey, uu)).length) := by
      rw [parse_loop_skip h1 (List.drop_zero _) (by simp), Nat.zero_add]
      have hd1 : (encPairs l1 ++ (encPair (databaseKey, d1) ++ (encPairs l2 ++ (encPair (databaseKey, d2) ++ (encPairs l3 ++ (encPair (userKey, uu) ++ trailing)))))).drop (encPairs l1).length = encPair (databaseKey, d1) ++ (encPairs l2 ++ (encPair (databaseKey, d2) ++ (encPairs l3 ++ (encPair (userKey, uu) ++ trailing)))) := List.drop_left _ _
      have hd1x := hd1.trans (encPair_append _ _ _)
      rw [parse_loop_database_step (by simp) hd1x hd10 hd1v]
      have hassoc2 : (encPairs l1 ++ (encPair (databaseKey, d1) ++ (encPairs l2 ++ (encPair (databaseKey, d2) ++ (encPairs l3 ++ (encPair (userKey, uu) ++ trailing)))))) = (encPairs l1 ++ encPair (databaseKey, d1)) ++ (encPairs l2 ++ (encPair (databaseKey, d2) ++ (encPairs l3 ++ (encPair (userKey, uu) ++ trailing)))) := by simp [List.append_assoc]
      have hd2 : (encPairs l1 ++ (encPair (databaseKey, d1) ++ (encPairs l2 ++ (encPair (databaseKey, d2) ++ (encPairs l3 ++ (encPair (userKey, uu) ++ trailing)))))).drop ((encPairs l1).length + (encPair (databaseKey, d1)).length) = encPairs l2 ++ (encPair (databaseKey, d2) ++ (encPairs l3 ++ (encPair (userKey, uu) ++ trailing))) := by
        rw [show ((encPairs l1).length + (encPair (databaseKey, d1)).length : Nat) = ((encPairs l1 ++ encPair (databaseKey, d1))).length from by simp [List.length_append] <;> omega, hassoc2, List.drop_left]
      rw [parse_loop_skip h2 hd2 (by simp)]
      have hassoc3 : (encPairs l1 ++ (encPair (databaseKey, d1) ++ (encPairs l2 ++ (encPair (databaseKey, d2) ++ (encPairs l3 ++ (encPair (userKey, uu) ++ trailing)))))) = ((encPairs l1 ++ encPair (databaseKey, d1)) ++ encPairs l2) ++ (encPair (databaseKey, d2) ++ (encPairs l3 ++ (encPair (userKey, uu) ++ trailing))) := by simp [List.append_assoc]
      have hd3 : (encPairs l1 ++ (encPair (databaseKey, d1) ++ (encPairs l2 ++ (encPair (databaseKey, d2) ++ (encPairs l3 ++ (encPair (userKey, uu) ++ trailing)))))).drop ((encPairs l1).length + (encPair (databaseKey, d1)).length + (encPairs l2).length) = encPair (databaseKey, d2) ++ (encPairs l3 ++ (encPair (userKey, uu) ++ trailing)) := by
        rw [show ((encPairs l1).length + (encPair (databaseKey, d1)).length + (encPairs l2).length : Nat) = (((encPairs l1 ++ encPair (databaseKey, d1)) ++ encPairs l2)).length from by simp [List.length_append] <;> omega, hassoc3, List.drop_left]
      have hd3x := hd3.trans (encPair_append _ _ _)
      rw [parse_loop_database_step (by simp) hd3x hd20 hd2v]
      have hassoc4 : (encPairs l1 ++ (encPair (databaseKey, d1) ++ (encPairs l2 ++ (encPair (databaseKey, d2) ++ (encPairs l3 ++ (encPair (userKey, uu) ++ trailing)))))) = (((encPairs l1 ++ encPair (databaseKey, d1)) ++ encPairs l2) ++ encPair (databaseKey, d2)) ++ (encPairs l3 ++ (encPair (userKey, uu) ++ trailing)) := by simp [List.append_assoc]
      have hd4 : (encPairs l1 ++ (encPair (databaseKey, d1) ++ (encPairs l2 ++ (encPair (databaseKey, d2) ++ (encPairs l3 ++ (encPair (userKey, uu) ++ trailing)))))).drop ((encPairs l1).length + (encPair (databaseKey, d1)).length + (encPairs l2).length + (encPair (databaseKey, d2)).length) = encPairs l3 ++ (encPair (userKey, uu) ++ trailing) := by
        rw [show ((encPairs l1).length + (encPair (databaseKey, d1)).length + (encPairs l2).length + (encPair (databaseKey, d2)).length : Nat) = ((((encPairs l1 ++ encPair (databaseKey, d1)) ++ encPairs l2) ++ encPair (databaseKey, d2))).length from by simp [List.length_append] <;> omega, hassoc4, List.drop_left]
      rw [parse_loop_skip h3 hd4 (by simp)]
      have hassoc5 : (encPairs l1 ++ (encPair (databaseKey, d1) ++ (encPairs l2 ++ (encPair (databaseKey, d2) ++ (encPairs l3 ++ (encPair (userKey, uu) ++ trailing)))))) = ((((encPairs l1 ++ encPair (databaseKey, d1)) ++ encPairs l2) ++ encPair (databaseKey, d2)) ++ encPairs l3) ++ (encPair (userKey, uu) ++ trailing) := by simp [List.append_assoc]
      have hd5 : (encPairs l1 ++ (encPair (databaseKey, d1) ++ (encPairs l2 ++ (encPair (databaseKey, d2) ++ (encPairs l3 ++ (encPair (userKey, uu) ++ trailing)))))).drop ((encPairs l1).length + (encPair (databaseKey, d1)).length + (encPairs l2).length + (encPair (databaseKey, d2)).length + (encPairs l3).length) = encPair (userKey, uu) ++ trailing := by
        rw [show ((encPairs l1).length + (encPair (databaseKey, d1)).length + (encPairs l2).length + (encPair (databaseKey, d2)).length + (encPairs l3).length : Nat) = (((((encPairs l1 ++ encPair (databaseKey, d1)) ++ encPairs l2) ++ encPair (databaseKey, d2)) ++ encPairs l3)).length from by simp [List.length_append] <;> omega, hassoc5, List.drop_left]
      have hd5x := hd5.trans (encPair_append _ _ _)
      rw [parse_loop_user_step (by simp) hd5x huu0 huuv]
      rw [parse_loop_done (by simp) (by simp)]
    simp only [parse_startup, hloop]


theorem natDigits_mem (n : Nat) : ∀ x ∈ natDigits n, 48 ≤ x ∧ x ≤ 57 := by
  induction n using Nat.strong_induction_on with
  | _ n ih =>
    intro x hx
    rw [natDigits] at hx
    split at hx
    · simp at hx
    · rename_i hne
      rw [List.mem_append] at hx
      rcases hx with hx | hx
      · exact ih (n / 10) (Nat.div_lt_self (Nat.pos_of_ne_zero hne) (by decide)) x hx
      · simp at hx
        have hm : n % 10 < 10 := Nat.mod_lt _ (by decide)
        omega

theorem natToBytes_mem (n : Nat) : ∀ x ∈ natToBytes n, 48 ≤ x ∧ x ≤ 57 := by
  unfold natToBytes
  split
  · intro x hx
    simp at hx
    omega
  · exact natDigits_mem n

theorem natToBytes_ne_nil (n : Nat) : natToBytes n ≠ [] := by
  unfold natToBytes
  split
  · simp
  · rename_i h
    rw [natDigits, dif_neg h]
    simp

theorem append_query_pairs_cons (url : List Nat) (p : List Nat × List Nat)
    (ps : List (List Nat × List Nat)) :
    append_query_pairs url (p :: ps) =
      append_query_pairs (url ++ strBytes "&" ++ p.1 ++ strBytes "=" ++ p.2) ps := rfl

theorem append_query_pairs_shape (ps : List (List Nat × List Nat)) :
    ∀ url : List Nat, ∃ ex : List Nat, append_query_pairs url ps = url ++ ex := by
  induction ps with
  | nil =>
    intro url
    exact ⟨[], by simp [append_query_pairs]⟩
  | cons p ps ih =>
    intro url
    obtain ⟨ex, hex⟩ := ih (url ++ strBytes "&" ++ p.1 ++ strBytes "=" ++ p.2)
    refine ⟨strBytes "&" ++ p.1 ++ strBytes "=" ++ p.2 ++ ex, ?_⟩
    rw [append_query_pairs_cons, hex]
    simp [List.append_assoc]

theorem no_scheme_of_shape (host ds R : List Nat) (hh : 58 ∉ host) (hds : ds ≠ [])
    (hdig : ∀ x ∈ ds, 48 ≤ x ∧ x ≤ 57) :
    ¬ strBytes "https://" <+: (host ++ 58 :: (ds ++ 47 :: R)) := by
  intro hp
  obtain ⟨tl, htl⟩ := hp
  have hm1 : memchr 58 (host ++ 58 :: (ds ++ 47 :: R)) = some host.length :=
    memchr_append_not_mem _ hh
  rw [← htl] at hm1
  have hm2 : memchr 58 (strBytes "https://" ++ tl) = some 5 :=
    @memchr_append_not_mem 58 [104, 116, 116, 112, 115] ([47, 47] ++ tl) (by decide)
  have h5 : host.length = 5 := by
    have hq := hm1.symm.trans hm2
    simp at hq
    exact hq
  have heq : host ++ 58 :: (ds ++ 47 :: R) =
      [104, 116, 116, 112, 115] ++ 58 :: 47 :: 47 :: tl := htl.symm
  obtain ⟨hhost, hrest⟩ := List.append_inj heq (by rw [h5]; rfl)
  injection hrest with he1 hrest2
  obtain ⟨d0, ds2, rfl⟩ : ∃ d0 ds2, ds = d0 :: ds2 := by
    cases ds with
    | nil => exact absurd rfl hds
    | cons a b => exact ⟨a, b, rfl⟩
  rw [List.cons_append] at hrest2
  injection hrest2 with hd0 he3
  have hdd := hdig d0 (List.mem_cons_self _ _)
  omega


/-- C1 counterexample: with a proxy endpoint configured, the TLS domain the
code hands to the connector is the database endpoint's hostname, not the
connect target's hostname (the claim asserts the latter). -/
theorem c1_counterexample :
    upgrade_to_tls proxiedConfig 83 =
      .ok { dangerAcceptInvalidCerts := true, domain := strBytes "db.internal" } ∧
    (connect_endpoint proxiedConfig).hostname = strBytes "bastion.internal" ∧
    strBytes "db.internal" ≠ strBytes "bastion.internal" := by
  refine ⟨by decide, by decide, by decide⟩

/-- C1 (amended): during backend TLS establishment the hostname supplied
for certificate name matching is always `endpoint.hostname` (the
authentication target); it coincides with the connect target's hostname
only when `proxy_endpoint` is absent. -/
theorem c1_tls_domain_is_auth_endpoint (c : BackendConfig) (b : Nat) (hb : b = 83) :
    upgrade_to_tls c b =
      .ok { dangerAcceptInvalidCerts := true, domain := c.endpoint.hostname } ∧
    (c.proxy_endpoint = none → (connect_endpoint c).hostname = c.endpoint.hostname) := by
  subst hb
  refine ⟨by simp [upgrade_to_tls], fun h => by simp [connect_endpoint, h]⟩

/-- C1 witness: the amended theorem applied to a concrete configuration. -/
theorem c1_witness :
    upgrade_to_tls proxiedConfig 83 =
      .ok { dangerAcceptInvalidCerts := true, domain := proxiedConfig.endpoint.hostname } ∧
    (proxiedConfig.proxy_endpoint = none →
      (connect_endpoint proxiedConfig).hostname = proxiedConfig.endpoint.hostname) :=
  c1_tls_domain_is_auth_endpoint proxiedConfig 83 rfl

/-- C2 counterexample: with no resolvable credentials the function panics
(`expect`), which is a different outcome from returning an error value. -/
theorem c2_counterexample :
    get_rds_password (strBytes "db.internal") 5432 (strBytes "us-east-1") (strBytes "alice")
        (.error .credentialError) [] =
      .panicked (strBytes "unable to load credentials") ∧
    POutcome.panicked (strBytes "unable to load credentials") ≠
      (POutcome.err .credentialError : POutcome (List Nat)) := by
  refine ⟨rfl, by decide⟩

/-- C2 (amended): for every (host, port, region, user), when the ambient
credential chain yields no credentials, get_rds_password panics with
"unable to load credentials" (via `expect`); the failure is not reported
as the function's error value. -/
theorem c2_missing_credentials_panics (host : List Nat) (port : Nat) (region user : List Nat)
    (e : RdsErr) (ps : List (List Nat × List Nat)) :
    get_rds_password host port region user (.error e) ps =
      .panicked (strBytes "unable to load credentials") := rfl

/-- C3 counterexample: one loop's copy fails with connReset while the
other loop (which would have copied successfully) is still running.  The
failing loop ends in the error without its shutdown ever being reached —
refuting the guaranteed shutdown-on-error-exit — and `try_join!` drops
the other loop, which is cancelled without completing or performing its
shutdown — refuting "the other loop is not forcibly aborted".  The
failing loop's error is the terminal error, as the claim says. -/
theorem c3_counterexample :
    try_join_relay ⟨.error .connReset, .ok ()⟩ ⟨.ok 0, .ok ()⟩ =
      (.error .connReset, .completed (.error .connReset) false, .cancelled) ∧
    (copy_loop (.error .connReset) (.ok ())).shutdownCalled = false := ⟨rfl, rfl⟩

/-- C3 (amended): in the relay phase, when one of the two byte-copy loops
fails while the other is still running, the failing loop's error is
surfaced as the session's terminal error, but the failing loop skips its
write-direction shutdown (shutdown runs only after a successful copy) and
`try_join!` returns on that first error and drops — forcibly aborts — the
other, still-pending loop, which therefore never performs its shutdown
either.  Only when the first-resolving loop completes successfully does
the other loop run to completion (its shutdown after a successful copy),
its error, if any, becoming the terminal error. -/
theorem c3_relay_error_path (e : IoErr) (sd : Except IoErr Unit) (other : LoopSpec)
    (n : Nat) (sd2 : Except IoErr Unit) :
    copy_loop (.error e) sd = { result := .error e, shutdownCalled := false } ∧
    copy_loop (.ok n) sd2 = { result := sd2, shutdownCalled := true } ∧
    try_join_relay ⟨.error e, sd⟩ other =
      (.error e, .completed (.error e) false, .cancelled) ∧
    try_join_relay ⟨.ok n, .ok ()⟩ ⟨.error e, sd2⟩ =
      (.error e, .completed (.ok ()) true, .completed (.error e) false) ∧
    try_join_relay ⟨.ok n, .ok ()⟩ ⟨.ok n, sd2⟩ =
      (sd2, .completed (.ok ()) true, .completed sd2 true) :=
  ⟨rfl, rfl, rfl, rfl, rfl⟩

/-- C4: for every configuration and parsed request, the token-signing
request targets endpoint's hostname and port (and the configured region
and requested user), while the TCP connection targets connect_endpoint():
proxy_endpoint when set, endpoint otherwise. -/
theorem c4_connect_vs_auth_targets (c : BackendConfig) (db : DbSpec) :
    (get_server_conn_effects c db).signHost = c.endpoint.hostname ∧
    (get_server_conn_effects c db).signPort = c.endpoint.port ∧
    (get_server_conn_effects c db).signRegion = c.region ∧
    (get_server_conn_effects c db).signUser = db.user ∧
    (get_server_conn_effects c db).tcpTarget = (connect_endpoint c).connect_str ∧
    (∀ p, c.proxy_endpoint = some p → connect_endpoint c = p) ∧
    (c.proxy_endpoint = none → connect_endpoint c = c.endpoint) := by
  refine ⟨rfl, rfl, rfl, rfl, rfl, ?_, ?_⟩
  · intro p hp
    simp [connect_endpoint, hp]
  · intro hp
    simp [connect_endpoint, hp]

/-- C4 witness: the theorem applied to a concrete proxied configuration. -/
theorem c4_witness :
    (get_server_conn_effects proxiedConfig ⟨strBytes "alice", strBytes "appdb"⟩).signHost =
        proxiedConfig.endpoint.hostname ∧
    (get_server_conn_effects proxiedConfig ⟨strBytes "alice", strBytes "appdb"⟩).signPort =
        proxiedConfig.endpoint.port ∧
    (get_server_conn_effects proxiedConfig ⟨strBytes "alice", strBytes "appdb"⟩).signRegion =
        proxiedConfig.region ∧
    (get_server_conn_effects proxiedConfig ⟨strBytes "alice", strBytes "appdb"⟩).signUser =
        (DbSpec.mk (strBytes "alice") (strBytes "appdb")).user ∧
    (get_server_conn_effects proxiedConfig ⟨strBytes "alice", strBytes "appdb"⟩).tcpTarget =
        (connect_endpoint proxiedConfig).connect_str ∧
    (∀ p, proxiedConfig.proxy_endpoint = some p → connect_endpoint proxiedConfig = p) ∧
    (proxiedConfig.proxy_endpoint = none → connect_endpoint proxiedConfig = proxiedConfig.endpoint) :=
  c4_connect_vs_auth_targets proxiedConfig ⟨strBytes "alice", strBytes "appdb"⟩

/-- C6 counterexample: a first frame with startup tag whose declared
length (9) differs from the bytes available (26) is not rejected — the
declared length is only checked to not exceed the available bytes, and the
frame parses successfully into a ClientRequest. -/
theorem c6_counterexample :
    read_i32_at c6frame 0 = 9 ∧ c6frame.length = 26 ∧
    i32_as_usize (read_i32_at c6frame 0) ≠ c6frame.length ∧
    auth_step c6frame = .startup (.ok ⟨[117], [100]⟩) := by
  refine ⟨by decide, by decide, by decide, ?_⟩
  simp [auth_step, c6frame, read_i32_at, i32_as_usize, parse_startup, parse_loop,
    read_cstr, memchr]
  decide

/-- C6 (amended): for every first frame with the startup tag 196608, the
handshake fails with the framing error exactly when the declared length
(read as an i32 and converted to usize) exceeds the bytes available; when
it does not exceed them — matching or smaller — the frame is accepted and
parsing proceeds over all bytes after the 8-byte header. -/
theorem c6_startup_framing (bytes : List Nat) (h8 : 8 ≤ bytes.length)
    (htag : read_i32_at bytes 4 = STARTUP_MESSAGE) :
    (bytes.length < i32_as_usize (read_i32_at bytes 0) →
      auth_step bytes = .shortPacket (read_i32_at bytes 0) bytes.length) ∧
    (¬ bytes.length < i32_as_usize (read_i32_at bytes 0) →
      auth_step bytes = .startup (parse_startup (bytes.drop 8))) := by
  have hns : ¬ (read_i32_at bytes 0 = 8 ∧ read_i32_at bytes 4 = SSL_REQUEST) := by
    rintro ⟨-, h⟩
    rw [htag] at h
    exact absurd h (by decide)
  constructor
  · intro hlt
    simp only [auth_step, if_neg (by omega : ¬ bytes.length < 8)]
    rw [if_neg hns, if_pos htag, if_pos hlt]
  · intro hge
    simp only [auth_step, if_neg (by omega : ¬ bytes.length < 8)]
    rw [if_neg hns, if_pos htag, if_neg hge]

/-- C6 witness: a frame whose declared length 20 exceeds its 8 available
bytes is rejected as a short packet. -/
theorem c6_witness :
    auth_step [0, 0, 0, 20, 0, 3, 0, 0] = .shortPacket 20 8 :=
  (c6_startup_framing [0, 0, 0, 20, 0, 3, 0, 0] (by decide) (by decide)).1 (by decide)

/-- C7: for every (host, port, region, user), the signing settings carry a
900-second expiry with the signature placed in the query parameters, the
signing parameters are scoped to the given region, and the returned token
is the signed url https://host:port/?Action=connect&DBUser=user (plus the
signature query pairs) with its leading scheme prefix removed — prepending
"https://" restores the signed url exactly, and the output does not itself
begin with "https://". -/
theorem c7_token_shape (host : List Nat) (port : Nat) (region user : List Nat)
    (creds : Credentials) (ps : List (List Nat × List Nat))
    (hh : 58 ∉ host) :
    get_rds_password host port region user (.ok creds) ps =
      .ok ((signed_url host port user ps).drop HTTPS_LEN) ∧
    strBytes "https://" ++ (signed_url host port user ps).drop HTTPS_LEN =
      signed_url host port user ps ∧
    (rds_signing_params region).settings.expiresInSecs = some 900 ∧
    (rds_signing_params region).settings.signatureLocation = .queryParams ∧
    (rds_signing_params region).region = region ∧
    ¬ strBytes "https://" <+: (signed_url host port user ps).drop HTTPS_LEN := by
  obtain ⟨ex, hex⟩ := append_query_pairs_shape ps (base_url host port user)
  have hB : strBytes ":" = [58] := rfl
  have hC : strBytes "/?Action=connect&DBUser=" =
      47 :: strBytes "?Action=connect&DBUser=" := rfl
  have hurl : signed_url host port user ps =
      strBytes "https://" ++ (host ++ 58 :: (natToBytes port ++ 47 ::
        (strBytes "?Action=connect&DBUser=" ++ (user ++ ex)))) := by
    rw [signed_url, hex, base_url, hB, hC]
    simp [List.append_assoc]
  have hdrop : (signed_url host port user ps).drop HTTPS_LEN =
      host ++ 58 :: (natToBytes port ++ 47 ::
        (strBytes "?Action=connect&DBUser=" ++ (user ++ ex))) := by
    rw [hurl]
    simp only [HTTPS_LEN]
    exact List.drop_left _ _
  refine ⟨rfl, ?_, rfl, rfl, rfl, ?_⟩
  · rw [hdrop, hurl]
  · rw [hdrop]
    exact no_scheme_of_shape host (natToBytes port) _ hh (natToBytes_ne_nil port)
      (natToBytes_mem port)

/-- C7 witness: the theorem applied to concrete inputs. -/
theorem c7_witness :
    get_rds_password (strBytes "db") 5432 (strBytes "us-east-1") (strBytes "bob")
        (.ok ⟨[]⟩) [([88], [89])] =
      .ok ((signed_url (strBytes "db") 5432 (strBytes "bob") [([88], [89])]).drop HTTPS_LEN) ∧
    strBytes "https://" ++
        (signed_url (strBytes "db") 5432 (strBytes "bob") [([88], [89])]).drop HTTPS_LEN =
      signed_url (strBytes "db") 5432 (strBytes "bob") [([88], [89])] ∧
    (rds_signing_params (strBytes "us-east-1")).settings.expiresInSecs = some 900 ∧
    (rds_signing_params (strBytes "us-east-1")).settings.signatureLocation = .queryParams ∧
    (rds_signing_params (strBytes "us-east-1")).region = strBytes "us-east-1" ∧
    ¬ strBytes "https://" <+:
        (signed_url (strBytes "db") 5432 (strBytes "bob") [([88], [89])]).drop HTTPS_LEN :=
  c7_token_shape (strBytes "db") 5432 (strBytes "us-east-1") (strBytes "bob")
    ⟨[]⟩ [([88], [89])] (by decide)

/-- C8: a client frame of total length 8 whose declared length field is 8
and whose tag is 80877103 makes auth_backend write back exactly the single
byte 0x4E and continue reading the next frame from the same socket — the
loop state returns to awaiting the first frame, so this holds on
repetition. -/
theorem c8_ssl_probe_self_loop (f : List Nat) (rest : List (List Nat))
    (hlen : f.length = 8) (hl : read_i32_at f 0 = 8) (ht : read_i32_at f 4 = SSL_REQUEST) :
    auth_step f = .sslNotAllowed ∧
    auth_run (f :: rest) = ([SSL_NOT_ALLOWED] :: (auth_run rest).1, (auth_run rest).2) := by
  have hc : read_i32_at f 0 = 8 ∧ read_i32_at f 4 = SSL_REQUEST := ⟨hl, ht⟩
  have hstep : auth_step f = .sslNotAllowed := by
    simp only [auth_step, if_neg (by omega : ¬ f.length < 8)]
    rw [if_pos hc]
  exact ⟨hstep, by simp [auth_run, hstep]⟩

/-- C8 witness: the theorem applied to the concrete probe frame
[0,0,0,8,4,210,22,47] (length 8, tag 80877103). -/
theorem c8_witness :
    auth_step [0, 0, 0, 8, 4, 210, 22, 47] = .sslNotAllowed ∧
    auth_run ([0, 0, 0, 8, 4, 210, 22, 47] :: []) =
      ([SSL_NOT_ALLOWED] :: (auth_run []).1, (auth_run []).2) :=
  c8_ssl_probe_self_loop [0, 0, 0, 8, 4, 210, 22, 47] [] (by decide) (by decide) (by decide)

/-- C9: a first frame with at least 8 bytes whose tag is 80877103 but
whose declared length is not 8 is not treated as an encryption probe; it
falls through to the unknown-message-tag error. -/
theorem c9_probe_wrong_length_unknown_tag (f : List Nat)
    (h8 : 8 ≤ f.length) (ht : read_i32_at f 4 = SSL_REQUEST)
    (hl : read_i32_at f 0 ≠ 8) :
    auth_step f = .unknownTag SSL_REQUEST := by
  have hns : ¬ (read_i32_at f 0 = 8 ∧ read_i32_at f 4 = SSL_REQUEST) := fun hand => hl hand.1
  have hnst : ¬ read_i32_at f 4 = STARTUP_MESSAGE := by
    rw [ht]
    decide
  simp only [auth_step, if_neg (by omega : ¬ f.length < 8)]
  rw [if_neg hns, if_neg hnst, ht]

/-- C9 witness: a frame with declared length 9 and the probe tag yields
the unknown-tag error. -/
theorem c9_witness :
    auth_step [0, 0, 0, 9, 4, 210, 22, 47] = .unknownTag SSL_REQUEST :=
  c9_probe_wrong_length_unknown_tag [0, 0, 0, 9, 4, 210, 22, 47] (by decide) (by decide)
    (by decide)

/-- C10 witness: the theorem applied to concrete payloads with duplicated
user (resp. database) keys. -/
theorem c10_witness :
    parse_startup
        (encPairs [] ++ (encPair (userKey, [97]) ++ (encPairs [] ++ (encPair (userKey, [98]) ++
          (encPairs [] ++ (encPair (databaseKey, [99]) ++ [0])))))) = .ok ⟨[98], [99]⟩ :=
  (c10_duplicate_keys_overwrite [] [] [] [97] [98] [99] [100] [101] [102] [0]
    (by decide) (by decide) (by decide) (by decide) (by decide) (by decide) (by decide)
    (by decide) (by decide) (by decide) (by decide) (by decide) (by decide) (by decide)
    (by decide)).1

end RdsProxy
